import Mathlib

/-!
Shallow embedding of the LPC176X UART HAL
(`src/libraries/mbed/targets/hal/TARGET_NXP/TARGET_LPC176X/serial_api.c`).

One UART port is modelled by `SerialApi.PortState`, combining the port's
device registers (`IER`, `MCR`, `FCR`, the NVIC line) with the per-index
entry of the driver's global table `uart_data[]`
(`struct serial_global_data_s`: `sw_rts`, `sw_cts`, `count`, `initialized`,
`irq_set_flow`, `irq_set_api`).  Machine integers are `Nat` with explicit
masks / `% 2^w` where the C code truncates; pins are `Option Nat` with
`none` standing for `NC`.
-/

namespace SerialApi

/-- The `SerialIrq` enumeration of the mbed HAL: `RxIrq = 0`, `TxIrq = 1`. -/
inductive SerialIrq where
  | RxIrq
  | TxIrq
deriving DecidableEq, Repr

/-- Numeric value of the enum constant, used as the `IER` bit position in
`1 << irq`. -/
def SerialIrq.toNat : SerialIrq → Nat
  | .RxIrq => 0
  | .TxIrq => 1

/-- `(irq == RxIrq) ? TxIrq : RxIrq` from `serial_irq_set_internal`. -/
def SerialIrq.other : SerialIrq → SerialIrq
  | .RxIrq => .TxIrq
  | .TxIrq => .RxIrq

/-- State of one UART port: device registers of `obj->uart` together with
`uart_data[obj->index]`.  `rtsLevel` is the output level last written to the
software-RTS GPIO. -/
structure PortState where
  ier : Nat
  nvicEnabled : Bool
  mcr : Nat
  fcr : Nat
  sw_rts : Option Nat
  sw_cts : Option Nat
  rtsLevel : Nat
  count : Nat
  initialized : Bool
  irq_set_flow : Nat
  irq_set_api : Nat
  index : Nat
deriving DecidableEq, Repr

/-- `serial_irq_set_internal` (serial_api.c:282-304).  `enable` is the raw
`uint32_t` argument; `~(1 << irq)` on a 32-bit register is
`0xFFFFFFFF ^^^ (1 <<< irq)`. -/
def serial_irq_set_internal (s : PortState) (irq : SerialIrq) (enable : Nat) :
    PortState :=
  if enable ≠ 0 then
    { s with ier := s.ier ||| (1 <<< irq.toNat), nvicEnabled := true }
  else if s.irq_set_api + s.irq_set_flow = 0 then
    if (s.ier &&& (0xFFFFFFFF ^^^ (1 <<< irq.toNat))) &&&
        (1 <<< irq.other.toNat) = 0 then
      { s with ier := s.ier &&& (0xFFFFFFFF ^^^ (1 <<< irq.toNat)),
               nvicEnabled := false }
    else
      { s with ier := s.ier &&& (0xFFFFFFFF ^^^ (1 <<< irq.toNat)) }
  else
    s

/-- `serial_irq_set` (serial_api.c:306-309): store the application request
(`uint8_t` slot, hence `% 256`) and run the common applicator. -/
def serial_irq_set (s : PortState) (irq : SerialIrq) (enable : Nat) : PortState :=
  serial_irq_set_internal { s with irq_set_api := enable % 256 } irq enable

/-- `serial_flow_irq_set` (serial_api.c:311-314): the flow-control requester. -/
def serial_flow_irq_set (s : PortState) (irq : SerialIrq) (enable : Nat) :
    PortState :=
  serial_irq_set_internal { s with irq_set_flow := enable % 256 } irq enable

/-- One interrupt-arbiter request: which entry point, direction, raw enable. -/
inductive IrqOp where
  | api (irq : SerialIrq) (enable : Nat)
  | flow (irq : SerialIrq) (enable : Nat)
deriving DecidableEq, Repr

/-- Direction targeted by a request. -/
def IrqOp.dir : IrqOp → SerialIrq
  | .api i _ => i
  | .flow i _ => i

/-- Raw enable argument of a request. -/
def IrqOp.level : IrqOp → Nat
  | .api _ e => e
  | .flow _ e => e

/-- Dispatch one request to the matching entry point. -/
def applyIrqOp (s : PortState) (op : IrqOp) : PortState :=
  match op with
  | .api i e => serial_irq_set s i e
  | .flow i e => serial_flow_irq_set s i e

/-- Run a sequence of arbiter requests. -/
def runIrqOps (s : PortState) (ops : List IrqOp) : PortState :=
  ops.foldl applyIrqOp s

/-- The spec's interrupt-arbiter invariant at direction `d`: the hardware
enable bit in `IER` for `d` is set iff some requester flag of the port is
set.  (The flags `irq_set_api` / `irq_set_flow` are per **port** in the
source, not per direction.) -/
def irqInvariant (d : SerialIrq) (s : PortState) : Prop :=
  s.ier.testBit d.toNat ↔ (s.irq_set_api ≠ 0 ∨ s.irq_set_flow ≠ 0)

instance (d : SerialIrq) (s : PortState) : Decidable (irqInvariant d s) := by
  unfold irqInvariant; infer_instance

/-- The state a port's slot is in right after `serial_init` on a fresh
driver: all interrupts off, FIFOs enabled, no software flow pins, both
requester flags clear. -/
def initState : PortState where
  ier := 0
  nvicEnabled := false
  mcr := 0
  fcr := 1
  sw_rts := none
  sw_cts := none
  rtsLevel := 0
  count := 0
  initialized := true
  irq_set_flow := 0
  irq_set_api := 0
  index := 0

theorem testBit_or_self (n : Nat) (d : SerialIrq) :
    (n ||| (1 <<< d.toNat)).testBit d.toNat = true := by
  rw [Nat.testBit_or]
  have h : Nat.testBit (1 <<< d.toNat) d.toNat = true := by cases d <;> decide
  rw [h, Bool.or_true]

theorem testBit_and_mask_self (n : Nat) (d : SerialIrq) :
    (n &&& (0xFFFFFFFF ^^^ (1 <<< d.toNat))).testBit d.toNat = false := by
  rw [Nat.testBit_and]
  have h : Nat.testBit (0xFFFFFFFF ^^^ (1 <<< d.toNat)) d.toNat = false := by
    cases d <;> decide
  rw [h, Bool.and_false]

theorem serial_irq_set_internal_enable (s : PortState) (d : SerialIrq)
    (e : Nat) (he : e ≠ 0) :
    serial_irq_set_internal s d e =
      { s with ier := s.ier ||| (1 <<< d.toNat), nvicEnabled := true } := by
  unfold serial_irq_set_internal
  simp [he]

theorem serial_irq_set_internal_skip (s : PortState) (d : SerialIrq)
    (hz : s.irq_set_api + s.irq_set_flow ≠ 0) :
    serial_irq_set_internal s d 0 = s := by
  unfold serial_irq_set_internal
  simp [hz]

theorem serial_irq_set_internal_disable (s : PortState) (d : SerialIrq)
    (hz : s.irq_set_api + s.irq_set_flow = 0) :
    serial_irq_set_internal s d 0 =
      if (s.ier &&& (0xFFFFFFFF ^^^ (1 <<< d.toNat))) &&&
          (1 <<< d.other.toNat) = 0 then
        { s with ier := s.ier &&& (0xFFFFFFFF ^^^ (1 <<< d.toNat)),
                 nvicEnabled := false }
      else
        { s with ier := s.ier &&& (0xFFFFFFFF ^^^ (1 <<< d.toNat)) } := by
  unfold serial_irq_set_internal
  simp [hz]

theorem applyIrqOp_irqInvariant (d : SerialIrq) (op : IrqOp) (s : PortState)
    (hd : op.dir = d) (he : op.level ≤ 1) (h : irqInvariant d s) :
    irqInvariant d (applyIrqOp s op) := by
  cases op with
  | api i e =>
    simp only [IrqOp.dir] at hd
    simp only [IrqOp.level] at he
    subst hd
    rcases Nat.le_one_iff_eq_zero_or_eq_one.mp he with rfl | rfl
    · show irqInvariant i (serial_irq_set s i 0)
      unfold serial_irq_set
      by_cases hz : (0 % 256) + s.irq_set_flow = 0
      · rw [serial_irq_set_internal_disable
          { s with irq_set_api := 0 % 256 } i (by simpa using hz)]
        have hflow : s.irq_set_flow = 0 := by omega
        have hm : (4294967295 : Nat).testBit i.toNat = true := by
          cases i <;> decide
        split <;> simp [irqInvariant, testBit_and_mask_self, hflow, hm]
      · rw [serial_irq_set_internal_skip
          { s with irq_set_api := 0 % 256 } i (by simpa using hz)]
        have hflow : s.irq_set_flow ≠ 0 := by omega
        have hbit : s.ier.testBit i.toNat = true := by
          simpa using h.mpr (Or.inr hflow)
        simp [irqInvariant, hbit, hflow]
    · show irqInvariant i (serial_irq_set s i 1)
      unfold serial_irq_set
      rw [serial_irq_set_internal_enable
        { s with irq_set_api := 1 % 256 } i 1 (by norm_num)]
      simp [irqInvariant, testBit_or_self]
  | flow i e =>
    simp only [IrqOp.dir] at hd
    simp only [IrqOp.level] at he
    subst hd
    rcases Nat.le_one_iff_eq_zero_or_eq_one.mp he with rfl | rfl
    · show irqInvariant i (serial_flow_irq_set s i 0)
      unfold serial_flow_irq_set
      by_cases hz : s.irq_set_api + (0 % 256) = 0
      · rw [serial_irq_set_internal_disable
          { s with irq_set_flow := 0 % 256 } i (by simpa using hz)]
        have hapi : s.irq_set_api = 0 := by omega
        have hm : (4294967295 : Nat).testBit i.toNat = true := by
          cases i <;> decide
        split <;> simp [irqInvariant, testBit_and_mask_self, hapi, hm]
      · rw [serial_irq_set_internal_skip
          { s with irq_set_flow := 0 % 256 } i (by simpa using hz)]
        have hapi : s.irq_set_api ≠ 0 := by omega
        have hbit : s.ier.testBit i.toNat = true := by
          simpa using h.mpr (Or.inl hapi)
        simp [irqInvariant, hbit, hapi]
    · show irqInvariant i (serial_flow_irq_set s i 1)
      unfold serial_flow_irq_set
      rw [serial_irq_set_internal_enable
        { s with irq_set_flow := 1 % 256 } i 1 (by norm_num)]
      simp [irqInvariant, testBit_or_self]

/-- C1, amended: restricted to request sequences that all target one fixed
direction `d` (with boolean enables), the arbiter maintains
"IER bit of `d` set  ⇔  `irq_set_api ≠ 0 ∨ irq_set_flow ≠ 0`". -/
theorem serial_irq_single_direction_invariant (d : SerialIrq)
    (ops : List IrqOp) (s : PortState)
    (hops : ∀ op ∈ ops, op.dir = d ∧ op.level ≤ 1)
    (h : irqInvariant d s) :
    irqInvariant d (runIrqOps s ops) := by
  induction ops generalizing s with
  | nil => exact h
  | cons op t ih =>
    have hop := hops op (List.mem_cons_self op t)
    exact ih (applyIrqOp s op)
      (fun o ho => hops o (List.mem_cons_of_mem op ho))
      (applyIrqOp_irqInvariant d op s hop.1 hop.2 h)

theorem serial_irq_single_direction_invariant_witness :
    irqInvariant .RxIrq
      (runIrqOps initState
        [.api .RxIrq 1, .flow .RxIrq 1, .api .RxIrq 0]) :=
  serial_irq_single_direction_invariant .RxIrq
    [.api .RxIrq 1, .flow .RxIrq 1, .api .RxIrq 0] initState
    (by decide) (by decide)

/-- C1 as stated is false: the requester flags live per port, not per
(port, direction).  After the single request `irq_set(p, TX, 1)` from the
freshly initialized state, the RX enable bit is clear while
`irq_set_api = 1`, so the claimed equivalence fails at direction RX. -/
theorem serial_irq_invariant_counterexample :
    ¬ irqInvariant .RxIrq (runIrqOps initState [.api .TxIrq 1]) := by
  decide

/-- C2: dual-requester scenario on RX.  From any state with both requester
flags clear, `irq_set(RX,1); flow_irq_set(RX,1); irq_set(RX,0)` leaves the
RX enable bit set; the subsequent `flow_irq_set(RX,0)` clears it and, when
the TX enable bit is clear too, disables the port's NVIC line. -/
theorem serial_irq_dual_requester (s : PortState)
    (hapi : s.irq_set_api = 0) (hflow : s.irq_set_flow = 0) :
    (serial_irq_set
        (serial_flow_irq_set (serial_irq_set s .RxIrq 1) .RxIrq 1)
        .RxIrq 0).ier.testBit 0 = true ∧
    (serial_flow_irq_set
        (serial_irq_set
          (serial_flow_irq_set (serial_irq_set s .RxIrq 1) .RxIrq 1)
          .RxIrq 0)
        .RxIrq 0).ier.testBit 0 = false ∧
    (s.ier.testBit 1 = false →
      (serial_flow_irq_set
          (serial_irq_set
            (serial_flow_irq_set (serial_irq_set s .RxIrq 1) .RxIrq 1)
            .RxIrq 0)
          .RxIrq 0).nvicEnabled = false) := by
  have e1 : serial_irq_set s .RxIrq 1 =
      { s with irq_set_api := 1, ier := s.ier ||| (1 <<< 0),
               nvicEnabled := true } := by
    unfold serial_irq_set
    rw [serial_irq_set_internal_enable
      { s with irq_set_api := 1 % 256 } .RxIrq 1 (by norm_num)]
    rfl
  have e2 : serial_flow_irq_set
      ({ s with irq_set_api := 1, ier := s.ier ||| (1 <<< 0),
                nvicEnabled := true } : PortState) .RxIrq 1 =
      { s with irq_set_api := 1, irq_set_flow := 1,
               ier := s.ier ||| (1 <<< 0) ||| (1 <<< 0),
               nvicEnabled := true } := by
    unfold serial_flow_irq_set
    rw [serial_irq_set_internal_enable _ .RxIrq 1 (by norm_num)]
    rfl
  have e3 : serial_irq_set
      ({ s with irq_set_api := 1, irq_set_flow := 1,
                ier := s.ier ||| (1 <<< 0) ||| (1 <<< 0),
                nvicEnabled := true } : PortState) .RxIrq 0 =
      { s with irq_set_api := 0, irq_set_flow := 1,
               ier := s.ier ||| (1 <<< 0) ||| (1 <<< 0),
               nvicEnabled := true } := by
    unfold serial_irq_set
    rw [serial_irq_set_internal_skip _ .RxIrq (by simp)]
  have hTXbit : ∀ b : Bool, s.ier.testBit 1 = b →
      ((s.ier ||| (1 <<< 0) ||| (1 <<< 0)) &&&
        (0xFFFFFFFF ^^^ (1 <<< 0))).testBit 1 = b := by
    intro b hb
    have hA : Nat.testBit 1 1 = false := by decide
    have hB : Nat.testBit 4294967294 1 = true := by decide
    simp [Nat.testBit_and, Nat.testBit_or, hb, hA, hB]
  rw [e1, e2, e3]
  unfold serial_flow_irq_set
  rw [serial_irq_set_internal_disable
    { s with irq_set_api := 0, irq_set_flow := 0 % 256,
             ier := s.ier ||| (1 <<< 0) ||| (1 <<< 0),
             nvicEnabled := true } .RxIrq (by simp)]
  refine ⟨by simp [testBit_or_self], ?_, ?_⟩
  · split <;> exact testBit_and_mask_self _ .RxIrq
  · intro hTX
    have h2 : ((s.ier ||| (1 <<< 0) ||| (1 <<< 0)) &&&
        (0xFFFFFFFF ^^^ (1 <<< 0))) &&& (1 <<< 1) = 0 := by
      have hb := hTXbit false hTX
      calc ((s.ier ||| (1 <<< 0) ||| (1 <<< 0)) &&&
          (0xFFFFFFFF ^^^ (1 <<< 0))) &&& (1 <<< 1)
          = ((s.ier ||| (1 <<< 0) ||| (1 <<< 0)) &&&
            (0xFFFFFFFF ^^^ (1 <<< 0))) &&& 2 ^ 1 := by rfl
        _ = 0 := by rw [Nat.and_two_pow, hb]; rfl
    split
    · rfl
    · next hcond => exact absurd h2 hcond

theorem serial_irq_dual_requester_witness :
    initState.irq_set_api = 0 ∧ initState.irq_set_flow = 0 ∧
    ((serial_irq_set
        (serial_flow_irq_set (serial_irq_set initState .RxIrq 1) .RxIrq 1)
        .RxIrq 0).ier.testBit 0 = true ∧
    (serial_flow_irq_set
        (serial_irq_set
          (serial_flow_irq_set (serial_irq_set initState .RxIrq 1) .RxIrq 1)
          .RxIrq 0)
        .RxIrq 0).ier.testBit 0 = false ∧
    (serial_flow_irq_set
        (serial_irq_set
          (serial_flow_irq_set (serial_irq_set initState .RxIrq 1) .RxIrq 1)
          .RxIrq 0)
        .RxIrq 0).nvicEnabled = false) :=
  ⟨rfl, rfl,
    (serial_irq_dual_requester initState rfl rfl).1,
    (serial_irq_dual_requester initState rfl rfl).2.1,
    (serial_irq_dual_requester initState rfl rfl).2.2 (by decide)⟩

/-- The `SerialParity` enumeration of the mbed HAL. -/
inductive SerialParity where
  | ParityNone
  | ParityOdd
  | ParityEven
  | ParityForced1
  | ParityForced0
deriving DecidableEq, Repr

/-- `serial_format` (serial_api.c:223-252): validate, then build the `LCR`
word `data_bits-5 | (stop_bits-1) << 2 | parity_enable << 3 |
parity_select << 4`.  `none` models the fatal `error(...)` calls, which do
not return and write no register. -/
def serial_format (data_bits : Nat) (parity : SerialParity)
    (stop_bits : Nat) : Option Nat :=
  if stop_bits ≠ 1 ∧ stop_bits ≠ 2 then none
  else if data_bits < 5 ∨ 8 < data_bits then none
  else
    let bits := data_bits - 5
    let stop := stop_bits - 1
    let pe_ps : Nat × Nat :=
      match parity with
      | .ParityNone => (0, 0)
      | .ParityOdd => (1, 0)
      | .ParityEven => (1, 1)
      | .ParityForced1 => (1, 2)
      | .ParityForced0 => (1, 3)
    some (bits ||| (stop <<< 2) ||| (pe_ps.1 <<< 3) ||| (pe_ps.2 <<< 4))

/-- Modelled from the spec: the inverse decoding of the line-control word
(bits 0..1 data length, bit 2 stop, bit 3 parity-enable, bits 4..5
parity-select). -/
def decodeLCR (w : Nat) : Option (Nat × SerialParity × Nat) :=
  let bits := (w &&& 0x3) + 5
  let stop := ((w >>> 2) &&& 0x1) + 1
  match (w >>> 3) &&& 0x1, (w >>> 4) &&& 0x3 with
  | 0, 0 => some (bits, .ParityNone, stop)
  | 1, 0 => some (bits, .ParityOdd, stop)
  | 1, 1 => some (bits, .ParityEven, stop)
  | 1, 2 => some (bits, .ParityForced1, stop)
  | 1, 3 => some (bits, .ParityForced0, stop)
  | _, _ => none

/-- C6: for every legal `(data_bits, parity, stop_bits)` the `LCR` word
written by `serial_format` decodes back to the original triple. -/
theorem serial_format_roundtrip (b s : Nat) (p : SerialParity)
    (hb1 : 5 ≤ b) (hb2 : b ≤ 8) (hs : s = 1 ∨ s = 2) :
    (serial_format b p s).bind decodeLCR = some (b, p, s) := by
  rcases hs with rfl | rfl <;> interval_cases b <;> cases p <;> decide

theorem serial_format_roundtrip_witness :
    (5 ≤ 8 ∧ (8 : Nat) ≤ 8 ∧ ((2 : Nat) = 1 ∨ (2 : Nat) = 2)) ∧
    (serial_format 8 .ParityEven 2).bind decodeLCR =
      some (8, .ParityEven, 2) :=
  ⟨⟨by decide, by decide, Or.inr rfl⟩,
    serial_format_roundtrip 8 2 .ParityEven (by decide) (by decide)
      (Or.inr rfl)⟩

/-- C7: `serial_format` hits the fatal configuration error exactly when an
input is out of range, and in particular on `(4, none, 1)` and
`(8, none, 3)`. -/
theorem serial_format_config_error :
    (∀ b p s, serial_format b p s = none ↔
      (b < 5 ∨ 8 < b ∨ (s ≠ 1 ∧ s ≠ 2)))
    ∧ serial_format 4 .ParityNone 1 = none
    ∧ serial_format 8 .ParityNone 3 = none := by
  refine ⟨fun b p s => ?_, by decide, by decide⟩
  unfold serial_format
  by_cases h1 : s ≠ 1 ∧ s ≠ 2
  · simp only [if_pos h1]
    simp [h1]
  · by_cases h2 : b < 5 ∨ 8 < b
    · simp only [if_neg h1, if_pos h2]
      simp only [eq_self_iff_true, true_iff]
      tauto
    · simp only [if_neg h1, if_neg h2]
      constructor
      · intro hcontra
        exact absurd hcontra (by simp)
      · intro hOr
        exfalso
        rcases hOr with h | h | h
        · exact h2 (Or.inl h)
        · exact h2 (Or.inr h)
        · exact h1 h

/-- `serial_init` (serial_api.c:84-145), restricted to its effect on the
modelled port state: the FIFO/IER register writes and the guarded
first-time reset of the per-index slot (lines 133-137).  Pin muxing, power
gating and the default `serial_baud`/`serial_format` calls act on
collaborator services or registers outside `PortState`. -/
def serial_init (s : PortState) : PortState :=
  let s1 := { s with fcr := 1, ier := 0 }
  if s1.initialized = false then
    { s1 with sw_rts := none, sw_cts := none, initialized := true }
  else s1

/-- C9: re-initializing an already initialized port leaves the software
flow-control pin slots untouched. -/
theorem serial_init_preserves_flow_pins (s : PortState)
    (h : s.initialized = true) :
    (serial_init s).sw_rts = s.sw_rts ∧ (serial_init s).sw_cts = s.sw_cts := by
  unfold serial_init
  simp [h]

theorem serial_init_preserves_flow_pins_witness :
    ({ initState with sw_rts := some 22 } : PortState).initialized = true ∧
    (serial_init { initState with sw_rts := some 22 }).sw_rts =
      ({ initState with sw_rts := some 22 } : PortState).sw_rts ∧
    (serial_init { initState with sw_rts := some 22 }).sw_cts =
      ({ initState with sw_rts := some 22 } : PortState).sw_cts :=
  ⟨rfl, (serial_init_preserves_flow_pins _ rfl).1,
    (serial_init_preserves_flow_pins _ rfl).2⟩

/-- `serial_writable` (serial_api.c:336-347).  `ctsRead` is the value
`gpio_read(&sw_cts)` yields at this poll, `lsr` the value read from the
line-status register.  Returns the `isWritable` result and the updated
state (the `count = 0` reset when the TX-empty bit `LSR & 0x20` is seen).
The source computes `isWritable` first and then branches; here the
not-clear-to-send case is the first guard. -/
def serial_writable (s : PortState) (ctsRead lsr : Nat) : Bool × PortState :=
  if s.sw_cts ≠ none ∧ ctsRead ≠ 0 then (false, s)
  else if lsr &&& 0x20 ≠ 0 then (true, { s with count := 0 })
  else if 16 ≤ s.count then (false, s)
  else (true, s)

/-- `serial_putc` (serial_api.c:326-330) at the poll on which
`serial_writable` finally returned true: write `THR` and increment the
`uint8_t` in-flight count.  `none` models a poll on which the busy-wait
would keep spinning. -/
def serial_putc (s : PortState) (ctsRead lsr : Nat) : Option PortState :=
  match serial_writable s ctsRead lsr with
  | (true, s2) => some { s2 with count := (s2.count + 1) % 256 }
  | (false, _) => none

/-- A sequence of completed `serial_putc` calls, each with the
`(ctsRead, lsr)` observation made at its successful poll. -/
def serial_putc_trace (s : PortState) : List (Nat × Nat) → Option PortState
  | [] => some s
  | ob :: rest =>
    match serial_putc s ob.1 ob.2 with
    | some s2 => serial_putc_trace s2 rest
    | none => none

theorem serial_writable_count_lt (s : PortState) (c l : Nat) (s2 : PortState)
    (h : serial_writable s c l = (true, s2)) : s2.count < 16 := by
  unfold serial_writable at h
  split_ifs at h with h1 h2 h3
  · simp at h
  · simp only [Prod.mk.injEq] at h
    rw [← h.2]
    simp
  · simp at h
  · simp only [Prod.mk.injEq] at h
    rw [← h.2]
    omega

theorem serial_putc_no_txempty (s : PortState) (c l : Nat) (s2 : PortState)
    (hl : l &&& 0x20 = 0) (h : serial_putc s c l = some s2) :
    s.count < 16 ∧ s2.count = s.count + 1 := by
  have hB : ¬(l &&& 0x20 ≠ 0) := by simp [hl]
  unfold serial_putc serial_writable at h
  by_cases hA : s.sw_cts ≠ none ∧ c ≠ 0
  · rw [if_pos hA] at h
    simp at h
  · rw [if_neg hA, if_neg hB] at h
    by_cases hC : 16 ≤ s.count
    · rw [if_pos hC] at h
      simp at h
    · rw [if_neg hC] at h
      simp at h
      refine ⟨by omega, ?_⟩
      rw [← h]
      show (s.count + 1) % 256 = s.count + 1
      exact Nat.mod_eq_of_lt (by omega)

/-- C3: the TX credit counter.  (i) every completed `serial_putc` leaves
`count` exactly one above the value current after its final writable poll;
(ii) when the CTS gate passes and the TX-empty bit is set, the writable
poll resets `count` to 0 and reports writable; (iii) starting from
`count ≤ 16`, any sequence of completed `serial_putc` calls none of whose
polls observed TX-empty keeps `count ≤ 16`. -/
theorem serial_putc_count_bound :
    (∀ s ctsRead lsr s2, serial_putc s ctsRead lsr = some s2 →
      s2.count = (serial_writable s ctsRead lsr).2.count + 1)
    ∧ (∀ s ctsRead lsr, (s.sw_cts = none ∨ ctsRead = 0) →
        lsr &&& 0x20 ≠ 0 →
        (serial_writable s ctsRead lsr).2.count = 0 ∧
        (serial_writable s ctsRead lsr).1 = true)
    ∧ (∀ s obs s2, s.count ≤ 16 →
        (∀ ob ∈ obs, ob.2 &&& 0x20 = 0) →
        serial_putc_trace s obs = some s2 → s2.count ≤ 16) := by
  refine ⟨?_, ?_, ?_⟩
  · intro s c l s2 h
    have hw := h
    unfold serial_putc at hw
    rcases hsw : serial_writable s c l with ⟨fst, snd⟩
    rw [hsw] at hw
    cases fst
    · simp at hw
    · simp only [Option.some.injEq] at hw
      have hc : snd.count < 16 := serial_writable_count_lt s c l snd hsw
      rw [← hw]
      show (snd.count + 1) % 256 = snd.count + 1
      exact Nat.mod_eq_of_lt (by omega)
  · intro s c l hcts hl
    have hng : ¬(s.sw_cts ≠ none ∧ c ≠ 0) := by
      rcases hcts with h | h <;> simp [h]
    unfold serial_writable
    rw [if_neg hng, if_pos hl]
    exact ⟨rfl, rfl⟩
  · intro s obs
    induction obs generalizing s with
    | nil =>
      intro s2 hc _ ht
      simp only [serial_putc_trace, Option.some.injEq] at ht
      subst ht
      exact hc
    | cons ob rest ih =>
      intro s2 hc hobs ht
      simp only [serial_putc_trace] at ht
      rcases hp : serial_putc s ob.1 ob.2 with _ | s3
      · rw [hp] at ht
        simp at ht
      · rw [hp] at ht
        have hob := hobs ob (List.mem_cons_self ob rest)
        obtain ⟨hlt, heq⟩ := serial_putc_no_txempty s ob.1 ob.2 s3 hob hp
        exact ih s3 s2 (by omega)
          (fun o ho => hobs o (List.mem_cons_of_mem ob ho)) ht

theorem serial_putc_count_bound_witness :
    initState.count ≤ 16 ∧
    serial_putc_trace initState [(0, 0)] =
      some ({ initState with count := 1 } : PortState) ∧
    ({ initState with count := 1 } : PortState).count ≤ 16 :=
  ⟨by decide, by decide,
    serial_putc_count_bound.2.2 initState [(0, 0)] _ (by decide)
      (by decide) (by decide)⟩

/-- Externally visible actions of the ISR dispatch and of `serial_getc`:
writes to the software-RTS GPIO, the callback invocation, the read of the
receive buffer register. -/
inductive UartEvent where
  | gpioWriteRts (v : Nat)
  | handlerCall (id : Nat) (irq : SerialIrq)
  | readRBR
deriving DecidableEq, Repr

/-- `uart_irq` (serial_api.c:257-270) as its sequence of actions.  `iir` is
the already-shifted identification field `(IIR >> 1) & 0x7`; code 1 is
TX-holding-empty, code 2 RX-data-available, others are ignored. -/
def uart_irq (iir : Nat) (sw_rts : Option Nat) (irq_id : Nat) :
    List UartEvent :=
  match iir with
  | 1 => if irq_id ≠ 0 then [.handlerCall irq_id .TxIrq] else []
  | 2 =>
    (if sw_rts ≠ none then [.gpioWriteRts 1] else [])
      ++ (if irq_id ≠ 0 then [.handlerCall irq_id .RxIrq] else [])
  | _ => []

/-- `serial_getc` (serial_api.c:319-324) as its sequence of actions after
the readable busy-wait completes: drive RTS low (when in software-RTS
mode), then read `RBR`. -/
def serial_getc (sw_rts : Option Nat) : List UartEvent :=
  (if sw_rts ≠ none then [.gpioWriteRts 0] else []) ++ [.readRBR]

/-- Level of the software-RTS GPIO after a sequence of actions, starting
from level `lvl`. -/
def rtsAfter (lvl : Nat) : List UartEvent → Nat
  | [] => lvl
  | .gpioWriteRts v :: rest => rtsAfter v rest
  | .handlerCall _ _ :: rest => rtsAfter lvl rest
  | .readRBR :: rest => rtsAfter lvl rest

/-- C8: with software RTS active, the RX ISR dispatch drives RTS high as
its very first action (before the handler runs), and `serial_getc` drives
RTS low before reading `RBR`; the levels after the two action sequences
are 1 and 0 respectively. -/
theorem software_rts_policy (pin irq_id lvl : Nat) :
    (uart_irq 2 (some pin) irq_id).head? = some (.gpioWriteRts 1)
    ∧ rtsAfter lvl (uart_irq 2 (some pin) irq_id) = 1
    ∧ serial_getc (some pin) = [.gpioWriteRts 0, .readRBR]
    ∧ rtsAfter lvl (serial_getc (some pin)) = 0 := by
  refine ⟨?_, ?_, by simp [serial_getc], by simp [serial_getc, rtsAfter]⟩
  · by_cases hid : irq_id ≠ 0 <;> simp [uart_irq, hid]
  · by_cases hid : irq_id ≠ 0 <;> simp [uart_irq, hid, rtsAfter]

/-- `UART_MCR_RTSEN_MASK` (serial_api.c:67). -/
def UART_MCR_RTSEN_MASK : Nat := 1 <<< 6

/-- `UART_MCR_CTSEN_MASK` (serial_api.c:68). -/
def UART_MCR_CTSEN_MASK : Nat := 1 <<< 7

/-- `UART_MCR_FLOWCTRL_MASK` (serial_api.c:69). -/
def UART_MCR_FLOWCTRL_MASK : Nat := UART_MCR_RTSEN_MASK ||| UART_MCR_CTSEN_MASK

/-- The `FlowControl` enumeration of the mbed HAL. -/
inductive FlowControl where
  | FlowControlNone
  | FlowControlRTS
  | FlowControlCTS
  | FlowControlRTSCTS
deriving DecidableEq, Repr

/-- Pin `P0_22` (LPC pin port*32+number). -/
def P0_22 : Nat := 22

/-- Pin `P2_7`. -/
def P2_7 : Nat := 71

/-- Pin `P0_17`. -/
def P0_17 : Nat := 17

/-- Pin `P2_2`. -/
def P2_2 : Nat := 66

/-- `PinMap_UART_RTS` (serial_api.c:55-59): every entry maps to `UART_1`. -/
def PinMap_UART_RTS : List Nat := [P0_22, P2_7]

/-- `PinMap_UART_CTS` (serial_api.c:61-65): every entry maps to `UART_1`. -/
def PinMap_UART_CTS : List Nat := [P0_17, P2_2]

/-- `pinmap_find_peripheral` against a table whose entries all map to
`UART_1`: the lookup yields `UART_1` exactly when the pin is listed; `NC`
finds nothing. -/
def pinmap_find_uart1 (pin : Option Nat) (table : List Nat) : Bool :=
  match pin with
  | none => false
  | some p => table.contains p

/-- `serial_set_flow_control` entry phase (serial_api.c:373-377): clear
both auto-flow bits in `MCR` (only UART1, our `index = 1`, has that
register), withdraw the flow-control RX interrupt request, and empty both
software pin slots. -/
def serial_flow_disable_all (s : PortState) : PortState :=
  { serial_flow_irq_set
      (if s.index = 1 then
        { s with mcr := s.mcr &&& (0xFFFFFFFF ^^^ UART_MCR_FLOWCTRL_MASK) }
      else s) .RxIrq 0
    with sw_rts := none, sw_cts := none }

/-- `serial_set_flow_control` CTS leg (serial_api.c:383-392): auto-CTS
when the pin maps to UART1's CTS alternate function and the port is UART1,
software emulation (`gpio_init` of `sw_cts` as input) otherwise. -/
def serial_flow_cts_leg (s : PortState) (type : FlowControl)
    (txflow : Option Nat) : PortState :=
  if (type = .FlowControlCTS ∨ type = .FlowControlRTSCTS) ∧
      txflow ≠ none then
    if pinmap_find_uart1 txflow PinMap_UART_CTS = true ∧ s.index = 1 then
      { s with mcr := s.mcr ||| UART_MCR_CTSEN_MASK }
    else
      { s with sw_cts := txflow }
  else s

/-- `serial_set_flow_control` RTS leg (serial_api.c:393-409): reset the
FIFOs with a one-byte RX trigger, then auto-RTS on UART1 with a matching
pin, or software emulation: `sw_rts` as output driven low plus the flow RX
interrupt request. -/
def serial_flow_rts_leg (s : PortState) (type : FlowControl)
    (rxflow : Option Nat) : PortState :=
  if (type = .FlowControlRTS ∨ type = .FlowControlRTSCTS) ∧
      rxflow ≠ none then
    if pinmap_find_uart1 rxflow PinMap_UART_RTS = true ∧ s.index = 1 then
      { s with fcr := 7, mcr := s.mcr ||| UART_MCR_RTSEN_MASK }
    else
      serial_flow_irq_set
        { s with fcr := 7, sw_rts := rxflow, rtsLevel := 0 } .RxIrq 1
  else s

/-- `serial_set_flow_control` (serial_api.c:368-410).  `s.index = 1` plays
the role of `obj->uart == LPC_UART1`. -/
def serial_set_flow_control (s : PortState) (type : FlowControl)
    (rxflow txflow : Option Nat) : PortState :=
  if type = .FlowControlNone then serial_flow_disable_all s
  else
    serial_flow_rts_leg
      (serial_flow_cts_leg (serial_flow_disable_all s) type txflow)
      type rxflow

theorem serial_flow_irq_set_mcr (s : PortState) (d : SerialIrq) (e : Nat) :
    (serial_flow_irq_set s d e).mcr = s.mcr := by
  unfold serial_flow_irq_set serial_irq_set_internal
  split_ifs <;> (try split) <;> simp

theorem serial_flow_irq_set_sw_rts (s : PortState) (d : SerialIrq) (e : Nat) :
    (serial_flow_irq_set s d e).sw_rts = s.sw_rts := by
  unfold serial_flow_irq_set serial_irq_set_internal
  split_ifs <;> (try split) <;> simp

theorem serial_flow_irq_set_sw_cts (s : PortState) (d : SerialIrq) (e : Nat) :
    (serial_flow_irq_set s d e).sw_cts = s.sw_cts := by
  unfold serial_flow_irq_set serial_irq_set_internal
  split_ifs <;> (try split) <;> simp

theorem serial_flow_irq_set_index (s : PortState) (d : SerialIrq) (e : Nat) :
    (serial_flow_irq_set s d e).index = s.index := by
  unfold serial_flow_irq_set serial_irq_set_internal
  split_ifs <;> (try split) <;> simp

theorem serial_flow_irq_set_flag (s : PortState) (d : SerialIrq) (e : Nat) :
    (serial_flow_irq_set s d e).irq_set_flow = e % 256 := by
  unfold serial_flow_irq_set serial_irq_set_internal
  split_ifs <;> (try split) <;> simp

theorem mcr_clear_bit7 (n : Nat) :
    (n &&& (0xFFFFFFFF ^^^ UART_MCR_FLOWCTRL_MASK)).testBit 7 = false := by
  rw [Nat.testBit_and]
  have h : Nat.testBit (0xFFFFFFFF ^^^ UART_MCR_FLOWCTRL_MASK) 7 = false := by
    decide
  rw [h, Bool.and_false]

theorem mcr_clear_bit6 (n : Nat) :
    (n &&& (0xFFFFFFFF ^^^ UART_MCR_FLOWCTRL_MASK)).testBit 6 = false := by
  rw [Nat.testBit_and]
  have h : Nat.testBit (0xFFFFFFFF ^^^ UART_MCR_FLOWCTRL_MASK) 6 = false := by
    decide
  rw [h, Bool.and_false]

theorem mcr_or_rtsen_bit7 (n : Nat) :
    (n ||| UART_MCR_RTSEN_MASK).testBit 7 = n.testBit 7 := by
  rw [Nat.testBit_or]
  have h : Nat.testBit UART_MCR_RTSEN_MASK 7 = false := by decide
  rw [h, Bool.or_false]

theorem mcr_or_ctsen_bit6 (n : Nat) :
    (n ||| UART_MCR_CTSEN_MASK).testBit 6 = n.testBit 6 := by
  rw [Nat.testBit_or]
  have h : Nat.testBit UART_MCR_CTSEN_MASK 6 = false := by decide
  rw [h, Bool.or_false]

theorem serial_flow_disable_all_proj (s : PortState) :
    (serial_flow_disable_all s).sw_cts = none ∧
    (serial_flow_disable_all s).sw_rts = none ∧
    (serial_flow_disable_all s).irq_set_flow = 0 ∧
    (serial_flow_disable_all s).index = s.index ∧
    (s.index = 1 → (serial_flow_disable_all s).mcr.testBit 7 = false ∧
      (serial_flow_disable_all s).mcr.testBit 6 = false) := by
  have hmcr : (serial_flow_disable_all s).mcr =
      (if s.index = 1 then
        ({ s with
            mcr := s.mcr &&& (0xFFFFFFFF ^^^ UART_MCR_FLOWCTRL_MASK) } :
          PortState)
      else s).mcr := by
    show (serial_flow_irq_set _ .RxIrq 0).mcr = _
    exact serial_flow_irq_set_mcr _ _ _
  refine ⟨rfl, rfl, ?_, ?_, ?_⟩
  · show (serial_flow_irq_set _ .RxIrq 0).irq_set_flow = 0
    rw [serial_flow_irq_set_flag]
  · show (serial_flow_irq_set _ .RxIrq 0).index = s.index
    rw [serial_flow_irq_set_index]
    split <;> rfl
  · intro hidx
    rw [hmcr, if_pos hidx]
    exact ⟨mcr_clear_bit7 s.mcr, mcr_clear_bit6 s.mcr⟩

theorem serial_flow_cts_leg_no_pin (s : PortState) (type : FlowControl) :
    serial_flow_cts_leg s type none = s := by
  unfold serial_flow_cts_leg
  rw [if_neg]
  simp

theorem serial_flow_cts_leg_frame (s : PortState) (type : FlowControl)
    (txflow : Option Nat) :
    (serial_flow_cts_leg s type txflow).sw_rts = s.sw_rts ∧
    (serial_flow_cts_leg s type txflow).index = s.index ∧
    (serial_flow_cts_leg s type txflow).irq_set_flow = s.irq_set_flow ∧
    (serial_flow_cts_leg s type txflow).mcr.testBit 6 = s.mcr.testBit 6 := by
  unfold serial_flow_cts_leg
  split_ifs <;>
    simp [mcr_or_ctsen_bit6,
      show UART_MCR_CTSEN_MASK.testBit 6 = false from by decide]

theorem serial_flow_rts_leg_no_pin (s : PortState) (type : FlowControl) :
    serial_flow_rts_leg s type none = s := by
  unfold serial_flow_rts_leg
  rw [if_neg]
  simp

theorem serial_flow_rts_leg_frame (s : PortState) (type : FlowControl)
    (rxflow : Option Nat) :
    (serial_flow_rts_leg s type rxflow).sw_cts = s.sw_cts ∧
    (serial_flow_rts_leg s type rxflow).mcr.testBit 7 = s.mcr.testBit 7 := by
  unfold serial_flow_rts_leg
  split_ifs <;>
    simp [serial_flow_irq_set_sw_cts, serial_flow_irq_set_mcr,
      mcr_or_rtsen_bit7,
      show UART_MCR_RTSEN_MASK.testBit 7 = false from by decide]

/-- C10: requesting CTS (resp. RTS) flow control with the corresponding
pin absent (`NC`) raises no error and leaves that channel silently
disabled: the software pin slot stays empty and, on the auto-capable
port, the auto-enable modem-control bit stays cleared (it was cleared on
entry); for the RTS channel the flow-control RX interrupt request also
stays withdrawn. -/
theorem serial_set_flow_control_absent_pin (s : PortState)
    (rxflow txflow : Option Nat) :
    (∀ type, (type = FlowControl.FlowControlCTS ∨
        type = FlowControl.FlowControlRTSCTS) →
      (serial_set_flow_control s type rxflow none).sw_cts = none ∧
      (s.index = 1 →
        (serial_set_flow_control s type rxflow none).mcr.testBit 7 = false))
    ∧ (∀ type, (type = FlowControl.FlowControlRTS ∨
        type = FlowControl.FlowControlRTSCTS) →
      (serial_set_flow_control s type none txflow).sw_rts = none ∧
      (s.index = 1 →
        (serial_set_flow_control s type none txflow).mcr.testBit 6 = false) ∧
      (serial_set_flow_control s type none txflow).irq_set_flow = 0) := by
  constructor
  · intro type htype
    have hne : type ≠ FlowControl.FlowControlNone := by
      rcases htype with rfl | rfl <;> decide
    unfold serial_set_flow_control
    rw [if_neg hne, serial_flow_cts_leg_no_pin]
    refine ⟨?_, ?_⟩
    · rw [(serial_flow_rts_leg_frame (serial_flow_disable_all s)
        type rxflow).1]
      exact (serial_flow_disable_all_proj s).1
    · intro hidx
      rw [(serial_flow_rts_leg_frame (serial_flow_disable_all s)
        type rxflow).2]
      exact ((serial_flow_disable_all_proj s).2.2.2.2 hidx).1
  · intro type htype
    have hne : type ≠ FlowControl.FlowControlNone := by
      rcases htype with rfl | rfl <;> decide
    unfold serial_set_flow_control
    rw [if_neg hne, serial_flow_rts_leg_no_pin]
    refine ⟨?_, ?_, ?_⟩
    · rw [(serial_flow_cts_leg_frame (serial_flow_disable_all s)
        type txflow).1]
      exact (serial_flow_disable_all_proj s).2.1
    · intro hidx
      rw [(serial_flow_cts_leg_frame (serial_flow_disable_all s)
        type txflow).2.2.2]
      exact ((serial_flow_disable_all_proj s).2.2.2.2 hidx).2
    · rw [(serial_flow_cts_leg_frame (serial_flow_disable_all s)
        type txflow).2.2.1]
      exact (serial_flow_disable_all_proj s).2.2.1

theorem serial_set_flow_control_absent_pin_witness :
    (serial_set_flow_control initState .FlowControlCTS none none).sw_cts =
      none ∧
    (serial_set_flow_control initState .FlowControlRTSCTS none none).sw_rts =
      none ∧
    (serial_set_flow_control initState .FlowControlRTS none none
      ).irq_set_flow = 0 :=
  ⟨((serial_set_flow_control_absent_pin initState none none).1
      .FlowControlCTS (Or.inl rfl)).1,
    ((serial_set_flow_control_absent_pin initState none none).2
      .FlowControlRTSCTS (Or.inr rfl)).1,
    ((serial_set_flow_control_absent_pin initState none none).2
      .FlowControlRTS (Or.inl rfl)).2.2⟩

/-- The relative baud error the divisor search computes for candidate
`(dlv, mv, dav)` (serial_api.c:193-195):
`|baudrate - PCLK/(16·dlv·(1 + dav/mv))| / baudrate`.  The C code carries
this out in single-precision float; the model uses exact rationals. -/
def candErr (PCLK baud dlv mv dav : Nat) : ℚ :=
  |(baud : ℚ) - (PCLK : ℚ) / (16 * (dlv : ℚ) * (1 + (dav : ℚ) / (mv : ℚ)))| /
    (baud : ℚ)

/-- The mutable state of the brute-force divisor search
(serial_api.c:180-189): current best `(DL, DivAddVal, MulVal)`, best error
so far (seeded with `(float)baudrate`), and the early-out flag. -/
structure BaudSearch where
  DL : Nat
  DivAddVal : Nat
  MulVal : Nat
  err_best : ℚ
  hit : Bool
deriving Repr

/-- Body of the innermost `dav` loop (serial_api.c:192-205): retain the
candidate on strict improvement, and set `hit` when its error drops below
`0.001`. -/
def stepCand (PCLK baud dlv : Nat) (st : BaudSearch) (p : Nat × Nat) :
    BaudSearch :=
  if candErr PCLK baud dlv p.1 p.2 < st.err_best then
    { DL := dlv, DivAddVal := p.2, MulVal := p.1,
      err_best := candErr PCLK baud dlv p.1 p.2,
      hit := st.hit || decide (candErr PCLK baud dlv p.1 p.2 < 1 / 1000) }
  else st

/-- The `(mv, dav)` pairs visited by the two inner loops, in program
order: `mv ∈ [1..15]`, `dav ∈ [1..mv-1]` (serial_api.c:191-192).  The
inner loops do not test `hit`, so the whole block runs for each `dlv`. -/
def mvdavPairs : List (Nat × Nat) :=
  (List.range' 1 15).flatMap fun mv =>
    (List.range' 1 (mv - 1)).map fun dav => (mv, dav)

/-- One iteration of the outer `dlv` loop, whose condition
`(dlv <= dlmax) && !hit` checks the early-out flag (serial_api.c:190). -/
def stepDlv (PCLK baud : Nat) (st : BaudSearch) (dlv : Nat) : BaudSearch :=
  if st.hit then st else mvdavPairs.foldl (stepCand PCLK baud dlv) st

/-- The `dlv` values visited by the outer loop: `dlmax/2 .. dlmax`. -/
def dlvRange (dlmax : Nat) : List Nat :=
  List.range' (dlmax / 2) (dlmax - dlmax / 2 + 1)

/-- The three-loop search of `serial_baud` (serial_api.c:187-208), seeded
with the `uint16_t`-truncated `DL = PCLK / (16 * baudrate)`,
`DivAddVal = 0`, `MulVal = 1`, `err_best = baudrate`. -/
def serial_baud_search (PCLK baud : Nat) : BaudSearch :=
  (dlvRange ((PCLK / (16 * baud)) % 65536)).foldl (stepDlv PCLK baud)
    { DL := (PCLK / (16 * baud)) % 65536, DivAddVal := 0, MulVal := 1,
      err_best := (baud : ℚ), hit := false }

/-- The `(DL, DivAddVal, MulVal)` triple `serial_baud`
(serial_api.c:153-221) writes to the divisor latch and fractional divider
registers: the exact path when `PCLK mod (16·baudrate) = 0`, the search
otherwise. -/
def serial_baud_calc (PCLK baud : Nat) : Nat × Nat × Nat :=
  if PCLK % (16 * baud) ≠ 0 then
    ((serial_baud_search PCLK baud).DL,
      (serial_baud_search PCLK baud).DivAddVal,
      (serial_baud_search PCLK baud).MulVal)
  else
    ((PCLK / (16 * baud)) % 65536, 0, 1)

/-- C5 as stated is false on the code: `DL` is a `uint16_t`, so an exact
division whose true quotient does not fit 16 bits is truncated.  At
`PCLK = 2^20`, `baud = 1` the remainder is 0 and the true quotient is
`65536`, but the code emits `DL = 0`. -/
theorem serial_baud_exact_counterexample :
    (1048576 : Nat) % (16 * 1) = 0 ∧
    serial_baud_calc 1048576 1 ≠ (1048576 / (16 * 1), 0, 1) := by
  decide

/-- C5, amended: whenever `PCLK mod (16·baud) = 0` **and the quotient fits
the 16-bit divisor latch**, the calculator emits
`(PCLK/(16·baud), DivAddVal = 0, MulVal = 1)` without running the
three-loop search (the exact path returns the seed directly). -/
theorem serial_baud_exact (PCLK baud : Nat)
    (hfit : PCLK / (16 * baud) < 65536)
    (hexact : PCLK % (16 * baud) = 0) :
    serial_baud_calc PCLK baud = (PCLK / (16 * baud), 0, 1) := by
  unfold serial_baud_calc
  rw [if_neg (by simpa using hexact)]
  rw [Nat.mod_eq_of_lt hfit]

theorem serial_baud_exact_witness :
    96000000 % (16 * 9600) = 0 ∧
    serial_baud_calc 96000000 9600 = (625, 0, 1) :=
  ⟨by decide, by
    have h := serial_baud_exact 96000000 9600 (by decide) (by decide)
    rw [h]⟩

theorem stepCand_err_mono (P B dlv : Nat) (st : BaudSearch) (p : Nat × Nat) :
    (stepCand P B dlv st p).err_best ≤ st.err_best := by
  unfold stepCand
  split_ifs with h
  · exact le_of_lt h
  · exact le_refl _

theorem stepCand_err_le (P B dlv : Nat) (st : BaudSearch) (p : Nat × Nat) :
    (stepCand P B dlv st p).err_best ≤ candErr P B dlv p.1 p.2 := by
  unfold stepCand
  split_ifs with h
  · exact le_refl _
  · exact le_of_not_lt h

/-- The search state always records either a candidate whose error equals
`err_best` exactly, or the untouched seed. -/
def ErrShape (P B DL0 : Nat) (st : BaudSearch) : Prop :=
  candErr P B st.DL st.MulVal st.DivAddVal = st.err_best ∨
    (st.DL = DL0 ∧ st.DivAddVal = 0 ∧ st.MulVal = 1 ∧
      st.err_best = (B : ℚ))

/-- Device-range bounds on the retained fractional divider values. -/
def MvDavBounds (st : BaudSearch) : Prop :=
  1 ≤ st.MulVal ∧ st.MulVal ≤ 15 ∧ st.DivAddVal < st.MulVal

/-- The early-out flag implies the recorded error is below the 0.1%
threshold. -/
def HitSmall (st : BaudSearch) : Prop :=
  st.hit = true → st.err_best < 1 / 1000

theorem mvdavPairs_bounds (p : Nat × Nat) (h : p ∈ mvdavPairs) :
    1 ≤ p.1 ∧ p.1 ≤ 15 ∧ 1 ≤ p.2 ∧ p.2 < p.1 := by
  unfold mvdavPairs at h
  simp only [List.mem_flatMap, List.mem_map, List.mem_range'_1] at h
  obtain ⟨mv, hmv, dav, hdav, heq⟩ := h
  rw [← heq]
  refine ⟨hmv.1, by omega, hdav.1, by omega⟩

theorem mvdavPairs_mem (mv dav : Nat) (h1 : 1 ≤ mv) (h2 : mv ≤ 15)
    (h3 : 1 ≤ dav) (h4 : dav < mv) : (mv, dav) ∈ mvdavPairs := by
  unfold mvdavPairs
  simp only [List.mem_flatMap, List.mem_map, List.mem_range'_1]
  exact ⟨mv, ⟨h1, by omega⟩, dav, ⟨h3, by omega⟩, rfl⟩

theorem stepCand_shape (P B DL0 dlv : Nat) (st : BaudSearch) (p : Nat × Nat)
    (h : ErrShape P B DL0 st) : ErrShape P B DL0 (stepCand P B dlv st p) := by
  unfold stepCand
  split_ifs with hlt
  · exact Or.inl rfl
  · exact h

theorem stepCand_bounds (P B dlv : Nat) (st : BaudSearch) (p : Nat × Nat)
    (hp : p ∈ mvdavPairs) (h : MvDavBounds st) :
    MvDavBounds (stepCand P B dlv st p) := by
  unfold stepCand
  split_ifs with hlt
  · obtain ⟨h1, h2, h3, h4⟩ := mvdavPairs_bounds p hp
    exact ⟨h1, h2, h4⟩
  · exact h

theorem stepCand_hit (P B dlv : Nat) (st : BaudSearch) (p : Nat × Nat)
    (h : HitSmall st) : HitSmall (stepCand P B dlv st p) := by
  unfold stepCand HitSmall
  split_ifs with hlt
  · intro hh
    simp only [Bool.or_eq_true, decide_eq_true_eq] at hh
    rcases hh with hh | hh
    · exact lt_trans hlt (h hh)
    · exact hh
  · exact h

theorem stepCand_hit_mono (P B dlv : Nat) (st : BaudSearch) (p : Nat × Nat)
    (h : st.hit = true) : (stepCand P B dlv st p).hit = true := by
  unfold stepCand
  split_ifs with hlt
  · simp [h]
  · exact h

theorem foldl_stepCand_err_mono (P B dlv : Nat) (l : List (Nat × Nat)) :
    ∀ st : BaudSearch,
      (l.foldl (stepCand P B dlv) st).err_best ≤ st.err_best := by
  induction l with
  | nil => intro st; exact le_refl _
  | cons p t ih =>
    intro st
    rw [List.foldl_cons]
    exact le_trans (ih (stepCand P B dlv st p)) (stepCand_err_mono P B dlv st p)

theorem foldl_stepCand_le_mem (P B dlv : Nat) (l : List (Nat × Nat)) :
    ∀ st : BaudSearch, ∀ p ∈ l,
      (l.foldl (stepCand P B dlv) st).err_best ≤ candErr P B dlv p.1 p.2 := by
  induction l with
  | nil => intro st p hp; cases hp
  | cons q t ih =>
    intro st p hp
    rw [List.foldl_cons]
    rcases List.mem_cons.mp hp with rfl | hp2
    · exact le_trans (foldl_stepCand_err_mono P B dlv t _)
        (stepCand_err_le P B dlv st p)
    · exact ih _ p hp2

theorem foldl_stepCand_pres (P B dlv : Nat) (Q : BaudSearch → Prop)
    (hQ : ∀ st p, p ∈ mvdavPairs → Q st → Q (stepCand P B dlv st p)) :
    ∀ (l : List (Nat × Nat)), (∀ p ∈ l, p ∈ mvdavPairs) →
      ∀ st, Q st → Q (l.foldl (stepCand P B dlv) st) := by
  intro l
  induction l with
  | nil => intro _ st h; exact h
  | cons q t ih =>
    intro hl st h
    rw [List.foldl_cons]
    exact ih (fun p hp => hl p (List.mem_cons_of_mem q hp)) _
      (hQ st q (hl q (List.mem_cons_self q t)) h)

theorem stepDlv_err_mono (P B : Nat) (st : BaudSearch) (dlv : Nat) :
    (stepDlv P B st dlv).err_best ≤ st.err_best := by
  unfold stepDlv
  split_ifs
  · exact le_refl _
  · exact foldl_stepCand_err_mono P B dlv mvdavPairs st

theorem stepDlv_hit_mono (P B : Nat) (st : BaudSearch) (dlv : Nat)
    (h : st.hit = true) : (stepDlv P B st dlv).hit = true := by
  unfold stepDlv
  rw [if_pos h]
  exact h

theorem stepDlv_pres (P B : Nat) (Q : BaudSearch → Prop)
    (hQ : ∀ dlv st p, p ∈ mvdavPairs → Q st → Q (stepCand P B dlv st p)) :
    ∀ st dlv, Q st → Q (stepDlv P B st dlv) := by
  intro st dlv h
  unfold stepDlv
  split_ifs
  · exact h
  · exact foldl_stepCand_pres P B dlv Q (hQ dlv) mvdavPairs
      (fun p hp => hp) st h

theorem foldl_stepDlv_err_mono (P B : Nat) (l : List Nat) :
    ∀ st : BaudSearch, (l.foldl (stepDlv P B) st).err_best ≤ st.err_best := by
  induction l with
  | nil => intro st; exact le_refl _
  | cons d t ih =>
    intro st
    rw [List.foldl_cons]
    exact le_trans (ih (stepDlv P B st d)) (stepDlv_err_mono P B st d)

theorem foldl_stepDlv_hit_mono (P B : Nat) (l : List Nat) :
    ∀ st : BaudSearch, st.hit = true →
      (l.foldl (stepDlv P B) st).hit = true := by
  induction l with
  | nil => intro st h; exact h
  | cons d t ih =>
    intro st h
    rw [List.foldl_cons]
    exact ih _ (stepDlv_hit_mono P B st d h)

theorem foldl_stepDlv_pres (P B : Nat) (Q : BaudSearch → Prop)
    (hQ : ∀ st dlv, Q st → Q (stepDlv P B st dlv)) :
    ∀ (l : List Nat) st, Q st → Q (l.foldl (stepDlv P B) st) := by
  intro l
  induction l with
  | nil => intro st h; exact h
  | cons d t ih =>
    intro st h
    rw [List.foldl_cons]
    exact ih _ (hQ st d h)

theorem foldl_stepDlv_cover (P B : Nat) (l : List Nat) :
    ∀ st : BaudSearch, (l.foldl (stepDlv P B) st).hit = false →
      ∀ d ∈ l, ∀ p ∈ mvdavPairs,
        (l.foldl (stepDlv P B) st).err_best ≤ candErr P B d p.1 p.2 := by
  induction l with
  | nil => intro st _ d hd; cases hd
  | cons d0 t ih =>
    intro st hres d hd p hp
    rw [List.foldl_cons] at hres ⊢
    have hst : st.hit = false := by
      cases hs : st.hit
      · rfl
      · exfalso
        have h2 : ((t).foldl (stepDlv P B) (stepDlv P B st d0)).hit = true :=
          foldl_stepDlv_hit_mono P B t _ (stepDlv_hit_mono P B st d0 hs)
        rw [hres] at h2
        exact Bool.noConfusion h2
    rcases List.mem_cons.mp hd with rfl | hd2
    · have hblock : stepDlv P B st d =
          mvdavPairs.foldl (stepCand P B d) st := by
        unfold stepDlv
        rw [if_neg (by simp [hst])]
      calc (t.foldl (stepDlv P B) (stepDlv P B st d)).err_best
          ≤ (stepDlv P B st d).err_best := foldl_stepDlv_err_mono P B t _
        _ ≤ candErr P B d p.1 p.2 := by
            rw [hblock]
            exact foldl_stepCand_le_mem P B d mvdavPairs st p hp
    · exact ih (stepDlv P B st d0) hres d hd2 p hp

theorem candErr_init_le_one (P B : Nat) (hb : 0 < B) (hp : 32 * B ≤ P) :
    candErr P B (P / (16 * B)) 1 0 ≤ 1 := by
  have hBpos : (0 : ℚ) < (B : ℚ) := by exact_mod_cast hb
  have h16B : 0 < 16 * B := by omega
  have hD2 : 2 ≤ P / (16 * B) := by
    rw [Nat.le_div_iff_mul_le h16B]
    omega
  have hDposQ : (0 : ℚ) < ((P / (16 * B) : Nat) : ℚ) := by
    exact_mod_cast (by omega : 0 < P / (16 * B))
  have hlow : 16 * B * (P / (16 * B)) ≤ P := by
    calc 16 * B * (P / (16 * B)) = P / (16 * B) * (16 * B) := by ring
      _ ≤ P := Nat.div_mul_le_self P (16 * B)
  have hhigh : P < 16 * B * (P / (16 * B)) + 16 * B := by
    have h1 := Nat.div_add_mod P (16 * B)
    have h2 : P % (16 * B) < 16 * B := Nat.mod_lt P h16B
    omega
  have hlowQ : (B : ℚ) * (16 * ((P / (16 * B) : Nat) : ℚ)) ≤ (P : ℚ) := by
    have : ((16 * B * (P / (16 * B)) : Nat) : ℚ) ≤ ((P : Nat) : ℚ) := by
      exact_mod_cast hlow
    push_cast at this
    linarith
  have hhighQ : (P : ℚ) ≤ 2 * (B : ℚ) * (16 * ((P / (16 * B) : Nat) : ℚ)) := by
    have hc : ((P : Nat) : ℚ) <
        ((16 * B * (P / (16 * B)) + 16 * B : Nat) : ℚ) := by
      exact_mod_cast hhigh
    push_cast at hc
    have hD2Q : (2 : ℚ) ≤ ((P / (16 * B) : Nat) : ℚ) := by exact_mod_cast hD2
    nlinarith
  unfold candErr
  have hzero : ((0 : Nat) : ℚ) / ((1 : Nat) : ℚ) = 0 := by norm_num
  rw [hzero]
  have hden : 16 * ((P / (16 * B) : Nat) : ℚ) * (1 + 0) =
      16 * ((P / (16 * B) : Nat) : ℚ) := by ring
  rw [hden]
  rw [div_le_one hBpos]
  have hcalc_ge : (B : ℚ) ≤ (P : ℚ) / (16 * ((P / (16 * B) : Nat) : ℚ)) := by
    rw [le_div_iff (by positivity)]
    linarith
  have hcalc_le : (P : ℚ) / (16 * ((P / (16 * B) : Nat) : ℚ)) ≤ 2 * B := by
    rw [div_le_iff (by positivity)]
    linarith
  rw [abs_sub_comm, abs_of_nonneg (by linarith)]
  linarith

/-- C4: on the non-exact path, the emitted `(DL, DivAddVal, MulVal)` has
`1 ≤ MulVal ≤ 15` and `DivAddVal < MulVal`, and its relative error is
either below the early-out threshold `0.001` or no greater than the error
of every candidate in the admitted search space
`dlv ∈ [DL0/2, DL0]`, `mv ∈ [1..15]`, `dav ∈ [1..mv-1]`
(first strict improvement retained, early-out checked per `dlv` block,
float arithmetic modelled by exact rationals). -/
theorem serial_baud_search_optimal (PCLK baud : Nat)
    (hb : 0 < baud) (hp : 32 * baud ≤ PCLK)
    (hne : PCLK % (16 * baud) ≠ 0)
    (hfit : PCLK / (16 * baud) < 65536) :
    (1 ≤ (serial_baud_calc PCLK baud).2.2 ∧
      (serial_baud_calc PCLK baud).2.2 ≤ 15 ∧
      (serial_baud_calc PCLK baud).2.1 < (serial_baud_calc PCLK baud).2.2) ∧
    (candErr PCLK baud (serial_baud_calc PCLK baud).1
        (serial_baud_calc PCLK baud).2.2 (serial_baud_calc PCLK baud).2.1 <
        1 / 1000 ∨
      ∀ dlv mv dav, PCLK / (16 * baud) / 2 ≤ dlv →
        dlv ≤ PCLK / (16 * baud) → 1 ≤ mv → mv ≤ 15 → 1 ≤ dav →
        dav < mv →
        candErr PCLK baud (serial_baud_calc PCLK baud).1
            (serial_baud_calc PCLK baud).2.2
            (serial_baud_calc PCLK baud).2.1 ≤
          candErr PCLK baud dlv mv dav) := by
  have hcalc : serial_baud_calc PCLK baud =
      ((serial_baud_search PCLK baud).DL,
        (serial_baud_search PCLK baud).DivAddVal,
        (serial_baud_search PCLK baud).MulVal) := by
    unfold serial_baud_calc
    rw [if_pos hne]
  have hsearch : serial_baud_search PCLK baud =
      (dlvRange (PCLK / (16 * baud))).foldl (stepDlv PCLK baud)
        { DL := PCLK / (16 * baud), DivAddVal := 0, MulVal := 1,
          err_best := (baud : ℚ), hit := false } := by
    unfold serial_baud_search
    rw [Nat.mod_eq_of_lt hfit]
  have hBone : (1 : ℚ) ≤ (baud : ℚ) := by exact_mod_cast hb
  have hboundsPres : ∀ st dlv, MvDavBounds st →
      MvDavBounds (stepDlv PCLK baud st dlv) :=
    stepDlv_pres PCLK baud MvDavBounds
      (fun dlv st p hp' h => stepCand_bounds PCLK baud dlv st p hp' h)
  have hshapePres : ∀ st dlv, ErrShape PCLK baud (PCLK / (16 * baud)) st →
      ErrShape PCLK baud (PCLK / (16 * baud)) (stepDlv PCLK baud st dlv) :=
    stepDlv_pres PCLK baud (ErrShape PCLK baud (PCLK / (16 * baud)))
      (fun dlv st p hp' h => stepCand_shape PCLK baud _ dlv st p h)
  have hhitPres : ∀ st dlv, HitSmall st →
      HitSmall (stepDlv PCLK baud st dlv) :=
    stepDlv_pres PCLK baud HitSmall
      (fun dlv st p hp' h => stepCand_hit PCLK baud dlv st p h)
  have hbounds : MvDavBounds (serial_baud_search PCLK baud) := by
    rw [hsearch]
    exact foldl_stepDlv_pres PCLK baud MvDavBounds hboundsPres _ _
      ⟨le_refl 1, by norm_num, by norm_num⟩
  have hshape : ErrShape PCLK baud (PCLK / (16 * baud))
      (serial_baud_search PCLK baud) := by
    rw [hsearch]
    exact foldl_stepDlv_pres PCLK baud _ hshapePres _ _
      (Or.inr ⟨rfl, rfl, rfl, rfl⟩)
  have hhit : HitSmall (serial_baud_search PCLK baud) := by
    rw [hsearch]
    exact foldl_stepDlv_pres PCLK baud _ hhitPres _ _
      (fun h => Bool.noConfusion h)
  rw [hcalc]
  refine ⟨hbounds, ?_⟩
  cases hhitval : (serial_baud_search PCLK baud).hit
  · right
    intro dlv mv dav hd1 hd2 hm1 hm2 ha1 ha2
    have hmem : dlv ∈ dlvRange (PCLK / (16 * baud)) := by
      unfold dlvRange
      rw [List.mem_range'_1]
      omega
    have hpmem : (mv, dav) ∈ mvdavPairs := mvdavPairs_mem mv dav hm1 hm2 ha1 ha2
    have hcover := foldl_stepDlv_cover PCLK baud
      (dlvRange (PCLK / (16 * baud)))
      { DL := PCLK / (16 * baud), DivAddVal := 0, MulVal := 1,
        err_best := (baud : ℚ), hit := false }
      (by rw [← hsearch]; exact hhitval) dlv hmem (mv, dav) hpmem
    rw [← hsearch] at hcover
    rcases hshape with hsh | ⟨hDL, hdav, hmv, herr⟩
    · rw [hsh]
      exact hcover
    · rw [hDL, hdav, hmv]
      calc candErr PCLK baud (PCLK / (16 * baud)) 1 0
          ≤ 1 := candErr_init_le_one PCLK baud hb hp
        _ ≤ (baud : ℚ) := hBone
        _ ≤ candErr PCLK baud dlv mv dav := by rw [← herr]; exact hcover
  · left
    have hsmall := hhit hhitval
    rcases hshape with hsh | ⟨hDL, hdav, hmv, herr⟩
    · rw [hsh]
      exact hsmall
    · exfalso
      rw [herr] at hsmall
      have : (1 : ℚ) < 1 / 1000 := lt_of_le_of_lt hBone hsmall
      norm_num at this

theorem serial_baud_search_optimal_witness :
    (0 < 115200 ∧ 32 * 115200 ≤ 96000000 ∧
      96000000 % (16 * 115200) ≠ 0 ∧ 96000000 / (16 * 115200) < 65536) ∧
    ((1 ≤ (serial_baud_calc 96000000 115200).2.2 ∧
      (serial_baud_calc 96000000 115200).2.2 ≤ 15 ∧
      (serial_baud_calc 96000000 115200).2.1 <
        (serial_baud_calc 96000000 115200).2.2) ∧
    (candErr 96000000 115200 (serial_baud_calc 96000000 115200).1
        (serial_baud_calc 96000000 115200).2.2
        (serial_baud_calc 96000000 115200).2.1 < 1 / 1000 ∨
      ∀ dlv mv dav, 96000000 / (16 * 115200) / 2 ≤ dlv →
        dlv ≤ 96000000 / (16 * 115200) → 1 ≤ mv → mv ≤ 15 → 1 ≤ dav →
        dav < mv →
        candErr 96000000 115200 (serial_baud_calc 96000000 115200).1
            (serial_baud_calc 96000000 115200).2.2
            (serial_baud_calc 96000000 115200).2.1 ≤
          candErr 96000000 115200 dlv mv dav)) :=
  ⟨⟨by decide, by decide, by decide, by decide⟩,
    serial_baud_search_optimal 96000000 115200 (by decide) (by decide)
      (by decide) (by decide)⟩

end SerialApi
